import Mathlib

set_option autoImplicit false
set_option maxHeartbeats 1000000

/-!
Shallow embedding of `store/directory.go` from the brig repository.

The in-memory object graph is modelled as a heap: a list of node objects
(`StoreNode`), with list positions playing the role of Go pointers.  All
mutating methods of `*Directory` are modelled as functions from a heap to a
heap paired with an optional error (Go methods mutate in place and return an
`error`, so the partially-mutated state is always observable).

Code of the repository that is not under `src/` (the `Hash` type with its
`Xor` combination, the `FS` store with `DirectoryByHash`/`NodeByHash`, the
`prefixSlash` helper, the `File` node type) is modelled from the spec; each
such definition carries a doc comment saying so.

Go `uint64` arithmetic is modelled as `Nat` reduced modulo `2^64`.
Go's `map[string]*Hash` is modelled as an association list with unique keys;
Go map iteration order is unspecified, the model fixes insertion order (none
of the proved statements depends on a particular order).
Loops whose termination depends on the shape of the heap (`Up`, `Walk`) take
explicit fuel; exhausting the fuel corresponds to a non-terminating Go loop
and is reported as the model-only error `fuelExhausted`.
-/

/-- Modelled from the spec: a content address is an opaque fixed-size digest
with an order-independent, self-inverse combination operator (the code calls
`Hash.Xor`, whose source file is not under `src/`).  A fixed-length byte
string is in bijection with a natural number; XOR on the bytes is `Nat.xor`. -/
abbrev Hash := Nat

/-- Modelled from the spec: the sentinel empty digest (`EmptyHash` in the Go
code, whose defining file is not under `src/`); the combination identity. -/
def emptyHash : Hash := 0

/-- Modulus of Go's `uint64`, the literal value of `2 ^ 64`. -/
def U64M : Nat := 18446744073709551616

/-- Go `uint64` addition (`+=` in `Directory.Add`'s upward walk). -/
def u64add (a b : Nat) : Nat := (a + b) % U64M

/-- Go `uint64` subtraction with wrap-around (`-=` in `RemoveChild`). -/
def u64sub (a b : Nat) : Nat := (a + (U64M - b % U64M)) % U64M

/-- Error conditions of the embedded code.  `noSuchEntry` is `NoSuchFile`,
`typeMismatch` is the store's wrong-kind condition, `idxOutOfRange` models a
Go runtime panic (index out of range), `fuelExhausted` models a
non-terminating loop, `invalidRef` models a nil-pointer dereference. -/
inductive Err where
  | noSuchEntry (name : String)
  | typeMismatch
  | storeLookupFailed
  | malformedInput
  | idxOutOfRange
  | fuelExhausted
  | invalidRef
  deriving DecidableEq

/-- Node kind discriminator (`wire.NodeType` / `GetType`). -/
inductive NodeType where
  | directory
  | file
  | commit
  deriving DecidableEq

/-- Modelled from the spec: a File is a leaf node with externally supplied
name, size and digest (the `File` type is not under `src/`); like every node
it carries a parent digest that `SetParent` rewrites. -/
structure FileNode where
  name : String
  size : Nat
  hash : Hash
  parent : Option Hash
  id : Nat
  deriving DecidableEq

/-- The `Directory` struct of `store/directory.go`.  `parent = none` models a
nil `*Hash` (as left by `newEmptyDirectory` for a root); `children` models
`map[string]*Hash`. -/
structure Directory where
  name : String
  size : Nat
  modTime : Nat
  parent : Option Hash
  hash : Hash
  children : List (String × Hash)
  id : Nat
  deriving DecidableEq

/-- A node object living in the store. -/
inductive StoreNode where
  | dir (d : Directory)
  | file (f : FileNode)
  deriving DecidableEq

def StoreNode.name : StoreNode → String
  | .dir d => d.name
  | .file f => f.name

def StoreNode.size : StoreNode → Nat
  | .dir d => d.size
  | .file f => f.size

def StoreNode.hash : StoreNode → Hash
  | .dir d => d.hash
  | .file f => f.hash

/-- `GetType` of a node. -/
def StoreNode.ntype : StoreNode → NodeType
  | .dir _ => .directory
  | .file _ => .file

/-- Overwrite a node's recorded parent digest (the assignment inside
`SetParent`). -/
def StoreNode.withParent : StoreNode → Option Hash → StoreNode
  | .dir d, p => .dir { d with parent := p }
  | .file f, p => .file { f with parent := p }

/-- The heap of live node objects; indices model Go pointers. -/
abbrev Heap := List StoreNode

/-- Pointer dereference. -/
def heapGet : Heap → Nat → Option StoreNode
  | [], _ => none
  | n :: _, 0 => some n
  | _ :: rest, k + 1 => heapGet rest k

/-- In-place update of the object at an address. -/
def heapSet : Heap → Nat → StoreNode → Heap
  | [], _, _ => []
  | _ :: rest, 0, v => v :: rest
  | n :: rest, k + 1, v => n :: heapSet rest k v

/-- Dereference an address expected to hold a `*Directory`. -/
def dirAt (σ : Heap) (i : Nat) : Option Directory :=
  match heapGet σ i with
  | some (.dir d) => some d
  | _ => none

/-- Go map read `m[k]` (association list with unique keys). -/
def mapLookup : List (String × Hash) → String → Option Hash
  | [], _ => none
  | (a, v) :: rest, k => if a = k then some v else mapLookup rest k

/-- Go map assignment `m[k] = v`: overwrite the existing binding or append. -/
def mapSet : List (String × Hash) → String → Hash → List (String × Hash)
  | [], k, v => [(k, v)]
  | (a, w) :: rest, k, v =>
    if a = k then (k, v) :: rest else (a, w) :: mapSet rest k v

/-- Go `delete(m, k)` (keys are unique, so removing the first binding). -/
def mapErase : List (String × Hash) → String → List (String × Hash)
  | [], _ => []
  | (a, w) :: rest, k => if a = k then rest else (a, w) :: mapErase rest k

/-- First heap address whose object currently carries the given digest. -/
def findHashIdx (h : Hash) : Heap → Nat → Option Nat
  | [], _ => none
  | n :: rest, k => if n.hash = h then some k else findHashIdx h rest (k + 1)

/-- Modelled from the spec: `FS.NodeByHash` — digest→node resolution via the
Tree Store (the `FS` type is not under `src/`); fails with a store-lookup
error when no object carries the digest. -/
def nodeByHash (σ : Heap) (h : Hash) : Except Err Nat :=
  match findHashIdx h σ 0 with
  | none => .error .storeLookupFailed
  | some i => .ok i

/-- Modelled from the spec: `FS.DirectoryByHash` — resolves specifically a
Directory, failing with a type-mismatch condition if the digest names a
different node kind (spec §6). -/
def directoryByHash (σ : Heap) (h : Hash) : Except Err Nat :=
  match findHashIdx h σ 0 with
  | none => .error .storeLookupFailed
  | some i =>
    match heapGet σ i with
    | some (.dir _) => .ok i
    | _ => .error .typeMismatch

/-- `SetParent`: a nil argument stores the sentinel `EmptyHash`, a node
argument stores that node's digest; never an error in the Go code. -/
def setParentGo (σ : Heap) (j : Nat) (arg : Option Hash) : Heap :=
  match heapGet σ j with
  | none => σ
  | some n =>
    heapSet σ j (n.withParent (some (match arg with
      | none => emptyHash
      | some h => h)))

/-- The loop body of `VisitChildren`: resolve each child digest as a
Directory and apply `fn`, stopping at the first error. -/
def visitChildrenFrom (σ : Heap) (f : Heap → Nat → Heap × Option Err) :
    List (String × Hash) → Heap × Option Err
  | [] => (σ, none)
  | (_, h) :: rest =>
    match directoryByHash σ h with
    | .error e => (σ, some e)
    | .ok j =>
      match f σ j with
      | (σ₁, some e) => (σ₁, some e)
      | (σ₁, none) => visitChildrenFrom σ₁ f rest

/-- `Directory.VisitChildren`. -/
def visitChildrenGo (σ : Heap) (i : Nat) (f : Heap → Nat → Heap × Option Err) :
    Heap × Option Err :=
  match dirAt σ i with
  | none => (σ, some .invalidRef)
  | some d => visitChildrenFrom σ f d.children

/-- `Directory.xorHash`: fold the digest into this directory's own digest,
then rewrite every child's recorded parent digest to the now-changed digest
(`child.SetParent(d)` reads the updated `d.Hash()`). -/
def xorHashGo (σ : Heap) (i : Nat) (h : Hash) : Heap × Option Err :=
  match dirAt σ i with
  | none => (σ, some .invalidRef)
  | some d =>
    let nh := d.hash ^^^ h
    let σ₁ := heapSet σ i (.dir { d with hash := nh })
    visitChildrenGo σ₁ i (fun σ' j => (setParentGo σ' j (some nh), none))

/-- `Directory.Up`: while the current directory's parent digest is non-nil,
visit it, then move to the parent resolved through the store (the parent
field is re-read after the visit, as in the Go loop).  A directory whose
parent is nil — in particular a root — is never visited. -/
def upGo (fuel : Nat) (σ : Heap) (i : Nat)
    (visit : Heap → Nat → Heap × Option Err) : Heap × Option Err :=
  match fuel with
  | 0 => (σ, some .fuelExhausted)
  | fuel + 1 =>
    match dirAt σ i with
    | none => (σ, some .invalidRef)
    | some d =>
      match d.parent with
      | none => (σ, none)
      | some _ =>
        match visit σ i with
        | (σ₁, some e) => (σ₁, some e)
        | (σ₁, none) =>
          match dirAt σ₁ i with
          | none => (σ₁, some .invalidRef)
          | some d₁ =>
            match d₁.parent with
            | none => (σ₁, some .storeLookupFailed)
            | some hp =>
              match directoryByHash σ₁ hp with
              | .error e => (σ₁, some e)
              | .ok k => upGo fuel σ₁ k visit

/-- `Directory.Add`: insert/overwrite the child's digest under its name,
then walk upward applying the size addition and digest fold. -/
def addGo (fuel : Nat) (σ : Heap) (i j : Nat) : Heap × Option Err :=
  match heapGet σ j, dirAt σ i with
  | some n, some d =>
    let σ₁ := heapSet σ i (.dir { d with children := mapSet d.children n.name n.hash })
    let nodeSize := n.size
    let nodeHash := n.hash
    upGo fuel σ₁ i (fun σ' k =>
      match dirAt σ' k with
      | none => (σ', some .invalidRef)
      | some p =>
        let σ'' := heapSet σ' k (.dir { p with size := u64add p.size nodeSize })
        xorHashGo σ'' k nodeHash)
  | _, _ => (σ, some .invalidRef)

/-- `Directory.RemoveChild`: fail with `NoSuchFile` if the name is absent;
otherwise unset the child's parent, delete the map entry, and walk upward
subtracting the size and folding the digest back out. -/
def removeChildGo (fuel : Nat) (σ : Heap) (i j : Nat) : Heap × Option Err :=
  match heapGet σ j, dirAt σ i with
  | some n, some d =>
    let name := n.name
    match mapLookup d.children name with
    | none => (σ, some (.noSuchEntry name))
    | some _ =>
      let σ₁ := setParentGo σ j none
      match dirAt σ₁ i with
      | none => (σ₁, some .invalidRef)
      | some d₁ =>
        let σ₂ := heapSet σ₁ i (.dir { d₁ with children := mapErase d₁.children name })
        match heapGet σ₂ j with
        | none => (σ₂, some .invalidRef)
        | some n₂ =>
          let nodeSize := n₂.size
          let nodeHash := n₂.hash
          upGo fuel σ₂ i (fun σ' k =>
            match dirAt σ' k with
            | none => (σ', some .invalidRef)
            | some p =>
              let σ'' := heapSet σ' k (.dir { p with size := u64sub p.size nodeSize })
              xorHashGo σ'' k nodeHash)
  | _, _ => (σ, some .invalidRef)

/-- `Walk` with the visitor instantiated to collect the addresses of the
visited nodes (the Go visitor is a callback; the claim is about which nodes
it gets called on).  Mirrors the Go control flow, including the `return`
inside the children loop that leaves after recursing into the first child. -/
def walkGo (fuel : Nat) (σ : Heap) (i : Nat) (dfs : Bool) :
    List Nat × Option Err :=
  match fuel with
  | 0 => ([], some .fuelExhausted)
  | fuel + 1 =>
    match heapGet σ i with
    | none => ([], some .invalidRef)
    | some (.file _) => ([i], none)
    | some (.dir d) =>
      let pre : List Nat := if dfs then [] else [i]
      match d.children with
      | [] => (pre ++ (if dfs then [i] else []), none)
      | (_, h) :: _ =>
        match nodeByHash σ h with
        | .error e => (pre, some e)
        | .ok j =>
          match walkGo fuel σ j dfs with
          | (vs, r) => (pre ++ vs, r)

/-- `Directory.Child`: the Go body is a stub that returns `nil, nil`
regardless of the receiver's children. -/
def childGo (_ : Directory) (_ : String) : Except Err (Option Nat) :=
  .ok none

/-- Dispatch of the `Child` interface call on an arbitrary node.  Directories
use `childGo`; for a File, modelled from the spec: a leaf has no children and
absence is not an error. -/
def nodeChild (σ : Heap) (i : Nat) (name : String) : Except Err (Option Nat) :=
  match heapGet σ i with
  | some (.dir d) => childGo d name
  | _ => .ok none

/-- Go `strings.Split(s, "/")` (single-character separator). -/
def splitSlash (s : String) : List String :=
  let step := fun (acc : List String × List Char) (ch : Char) =>
    if ch = '/' then (String.mk acc.2.reverse :: acc.1, ([] : List Char))
    else (acc.1, ch :: acc.2)
  let r := s.data.foldl step ([], [])
  (String.mk r.2.reverse :: r.1).reverse

/-- Join path components with slashes. -/
def joinWith (sep : String) : List String → String
  | [] => ""
  | [x] => x
  | x :: rest => x ++ sep ++ joinWith sep rest

/-- Whether the string begins with a slash. -/
def startsWithSlash (s : String) : Bool :=
  match s.data with
  | '/' :: _ => true
  | _ => false

/-- Go's `path.Clean` (standard library, external to the repository),
expressed as the documented lexical normalization: collapse slashes, drop
`.` components, resolve `..` against the preceding component. -/
def pathClean (p : String) : String :=
  if p = "" then "."
  else
    let rooted := startsWithSlash p
    let step := fun (acc : List String) (c : String) =>
      if c = "" ∨ c = "." then acc
      else if c = ".." then
        match acc with
        | [] => if rooted then [] else [".."]
        | x :: rest => if x = ".." then c :: x :: rest else rest
      else c :: acc
    let out := ((splitSlash p).foldl step []).reverse
    let s := joinWith "/" out
    if rooted then "/" ++ s
    else if s = "" then "." else s

/-- Modelled from the spec: the `prefixSlash` helper (not under `src/`)
prepends a slash when the path does not already start with one. -/
def ensureLeadingSlash (p : String) : String :=
  if startsWithSlash p then p else "/" ++ p

/-- The component loop of `Directory.Lookup`: repeated `Child` calls,
returning an overall absent result as soon as one component is absent. -/
def lookupLoop (σ : Heap) : Nat → List String → Except Err (Option Nat)
  | i, [] => .ok (some i)
  | i, e :: rest =>
    match nodeChild σ i e with
    | .error err => .error err
    | .ok none => .ok none
    | .ok (some j) => lookupLoop σ j rest

/-- `Directory.Lookup`: normalize the path, split on slashes, then resolve
component by component starting at this directory. -/
def lookupGo (σ : Heap) (i : Nat) (repoPath : String) : Except Err (Option Nat) :=
  let p := ensureLeadingSlash (pathClean repoPath)
  let elems := splitSlash p
  if elems.length = 1 then .ok (some i)
  else lookupLoop σ i elems

/-- The Directory payload of a wire message: parallel child name / child
digest sequences. -/
structure WireDirectory where
  links : List Hash
  names : List String
  deriving DecidableEq

/-- The flat wire message (`wire.Node`) as filled in by `ToProto`. -/
structure WireNode where
  id : Nat
  ntype : NodeType
  modTime : Nat
  nodeSize : Nat
  hash : Hash
  name : String
  parent : Hash
  directory : WireDirectory
  deriving DecidableEq

/-- `Directory.ToProto`: a pure projection of the current state; the child
map is emitted as parallel name/link sequences in one iteration.  The binary
mod-time is modelled by the time value itself; a nil parent pointer emits the
sentinel empty digest (the `Hash` byte accessor is not under `src/`). -/
def toProtoGo (d : Directory) : WireNode :=
  { id := d.id
    ntype := .directory
    modTime := d.modTime
    nodeSize := d.size
    hash := d.hash
    name := d.name
    parent := match d.parent with
      | none => emptyHash
      | some h => h
    directory :=
      { links := d.children.map (fun e => e.2)
        names := d.children.map (fun e => e.1) } }

/-- The child-reconstruction loop of `FromProto`.  The Go guard reads
`if idx >= 0 && idx < len(links) { return Malformed... }`: since a range
index is never negative, it rejects exactly the in-range indices; an
out-of-range index then panics on `links[idx]`. -/
def fromProtoChildren (links : List Hash) :
    Nat → List String → List (String × Hash) →
    List (String × Hash) × Option Err
  | _, [], acc => (acc, none)
  | idx, name :: rest, acc =>
    if idx < links.length then (acc, some .malformedInput)
    else
      match links.get? idx with
      | none => (acc, some .idxOutOfRange)
      | some l => fromProtoChildren links (idx + 1) rest (mapSet acc name l)

/-- `Directory.FromProto`: overwrite every field in place from the message,
then rebuild the children map from the parallel sequences (mod-time
unmarshalling succeeds on every value our `ToProto` emits).  On error the
fields already assigned keep their new values, as in the Go code. -/
def fromProtoGo (d : Directory) (pnd : WireNode) : Directory × Option Err :=
  let d₁ : Directory :=
    { d with
      id := pnd.id
      modTime := pnd.modTime
      parent := some pnd.parent
      size := pnd.nodeSize
      hash := pnd.hash
      name := pnd.name
      children := [] }
  match fromProtoChildren pnd.directory.links 0 pnd.directory.names [] with
  | (cs, some e) => ({ d₁ with children := cs }, some e)
  | (cs, none) => ({ d₁ with children := cs }, none)

/-- Decidable equality for `Except` results, used to evaluate the claim
statements on concrete inputs. -/
instance {ε α : Type} [DecidableEq ε] [DecidableEq α] : DecidableEq (Except ε α) := fun x y =>
  match x, y with
  | .ok a, .ok b =>
    if h : a = b then .isTrue (by rw [h])
    else .isFalse (fun he => h (by injection he))
  | .error a, .error b =>
    if h : a = b then .isTrue (by rw [h])
    else .isFalse (fun he => h (by injection he))
  | .ok _, .error _ => .isFalse (fun he => by injection he)
  | .error _, .ok _ => .isFalse (fun he => by injection he)

/-- Size of the node stored at an address (0 when unresolvable). -/
def nodeSizeAt (σ : Heap) (i : Nat) : Nat :=
  match heapGet σ i with
  | some n => n.size
  | none => 0

/-- Sum of the sizes of a directory's current children, each resolved
through the store. -/
def sumChildSizes (σ : Heap) (i : Nat) : Nat :=
  match dirAt σ i with
  | none => 0
  | some d =>
    (d.children.map (fun e =>
      match nodeByHash σ e.2 with
      | .ok k => nodeSizeAt σ k
      | .error _ => 0)).sum

/-! ### Concrete configurations used by the claim theorems -/

/-- A root directory as produced by `newEmptyDirectory` with no parent:
the parent pointer is nil; the children map is taken empty (the Go factory
in fact leaves it nil, so the first `Add` would panic on map assignment —
the charitable empty-map reading is used here). -/
def c1Root : Directory :=
  { name := "root", size := 0, modTime := 0, parent := none, hash := 5, children := [], id := 1 }

/-- The file of the C1 scenario: name `a.txt`, size 10, digest 9. -/
def c1File : FileNode :=
  { name := "a.txt", size := 10, hash := 9, parent := none, id := 2 }

def c1Heap : Heap := [.dir c1Root, .file c1File]

def c2Root : Directory :=
  { name := "root", size := 0, modTime := 0, parent := none, hash := 3, children := [("dirA", 7)], id := 1 }

def c2DirA : Directory :=
  { name := "dirA", size := 0, modTime := 0, parent := some 3, hash := 7, children := [], id := 2 }

def c2FileB : FileNode :=
  { name := "b", size := 10, hash := 12, parent := some 7, id := 3 }

/-- Three-level tree root → dirA → fileB being added. -/
def c2Heap : Heap := [.dir c2Root, .dir c2DirA, .file c2FileB]

def c7D : Directory :=
  { name := "D", size := 11, modTime := 0, parent := none, hash := 20, children := [("a", 21), ("b", 22)], id := 1 }

def c7A : FileNode := { name := "a", size := 5, hash := 21, parent := some 20, id := 2 }

def c7B : FileNode := { name := "b", size := 6, hash := 22, parent := some 20, id := 3 }

/-- A directory with two file children for the traversal claim. -/
def c7Heap : Heap := [.dir c7D, .file c7A, .file c7B]

def c8Root : Directory :=
  { name := "root", size := 0, modTime := 0, parent := none, hash := 3, children := [("d", 7)], id := 1 }

def c8D : Directory :=
  { name := "d", size := 0, modTime := 0, parent := some 3, hash := 7, children := [], id := 2 }

def c8F : Directory :=
  { name := "a", size := 1, modTime := 0, parent := none, hash := 16, children := [], id := 3 }

def c8G : Directory :=
  { name := "a", size := 2, modTime := 0, parent := none, hash := 32, children := [], id := 4 }

/-- Store for the add/add-overwrite/remove sequence: a root, the mutated
directory `d`, and two directories `F` and `G` that share the name `a` but
have different digests. -/
def c8Heap : Heap := [.dir c8Root, .dir c8D, .dir c8F, .dir c8G]

/-- A default-initialized directory, the receiver a message is decoded into. -/
def freshDir : Directory :=
  { name := "", size := 0, modTime := 0, parent := none, hash := 0, children := [], id := 0 }

/-- A directory with one child, for the round-trip claim. -/
def c5Dir : Directory :=
  { name := "x", size := 10, modTime := 7, parent := some 4, hash := 6, children := [("a", 9)], id := 1 }

/-- A directory with no children, for the round-trip claim. -/
def c5Empty : Directory :=
  { name := "y", size := 0, modTime := 7, parent := some 4, hash := 6, children := [], id := 2 }

/-- A wire message whose name and link sequences have equal length 1. -/
def c4EqualMsg : WireNode :=
  { id := 1, ntype := .directory, modTime := 0, nodeSize := 0, hash := 0, name := "m",
    parent := 0, directory := { links := [7], names := ["a"] } }

/-- A wire message with one name and no links (names longer than links). -/
def c4NamesOnlyMsg : WireNode :=
  { id := 1, ntype := .directory, modTime := 0, nodeSize := 0, hash := 0, name := "m",
    parent := 0, directory := { links := [], names := ["a"] } }

/-- A wire message with one link and no names (links longer than names). -/
def c4LinksOnlyMsg : WireNode :=
  { id := 1, ntype := .directory, modTime := 0, nodeSize := 0, hash := 0, name := "m",
    parent := 0, directory := { links := [7], names := [] } }

def c6Child : Directory :=
  { name := "a", size := 0, modTime := 0, parent := some 20, hash := 5, children := [], id := 2 }

def c6D : Directory :=
  { name := "D", size := 0, modTime := 0, parent := none, hash := 20, children := [("a", 5)], id := 1 }

/-- A directory with a child registered under name `a`. -/
def c6Heap : Heap := [.dir c6D, .dir c6Child]

/-! ### Claim theorems -/

/-- Claim C1: the spec's scenario says that adding a file of size 10 and
digest `h1` to an empty root directory yields `size = 10` and
`digest = combine(initial, h1)`.  The code does not do this: `Up` skips any
directory whose parent pointer is nil, so `Add` on a root updates only the
children map and leaves size and digest untouched (evaluated here: the add
reports no error, yet size stays 0 and the digest stays 5 instead of
`5 ^^^ 9`; the subsequent remove trivially leaves them unchanged too). -/
theorem claim1_root_add_updates_nothing :
    (addGo 4 c1Heap 0 1).2 = none ∧
    dirAt (addGo 4 c1Heap 0 1).1 0 =
      some { c1Root with children := [("a.txt", 9)] } ∧
    (dirAt (addGo 4 c1Heap 0 1).1 0).map Directory.size = some 0 ∧
    (dirAt (addGo 4 c1Heap 0 1).1 0).map Directory.hash = some 5 ∧
    (removeChildGo 4 (addGo 4 c1Heap 0 1).1 0 1).2 = none ∧
    dirAt (removeChildGo 4 (addGo 4 c1Heap 0 1).1 0 1).1 0 = some c1Root := by
  decide

/-- Claim C2: the spec says a single `add` of `fileB` into `dirA` applies
the same size and digest update to every ancestor up to and including the
root.  Evaluating the code on the three-level tree: the add returns the
store's type-mismatch error (the digest fold re-resolves every child of
`dirA` — including the just-added file — through `DirectoryByHash`), `dirA`
has its size and digest updated, and the root is left completely unchanged
(`Up` stops before visiting a parentless directory). -/
theorem claim2_upward_walk_stops_before_root :
    (addGo 4 c2Heap 1 2).2 = some .typeMismatch ∧
    dirAt (addGo 4 c2Heap 1 2).1 1 =
      some { c2DirA with size := 10, hash := 11, children := [("b", 12)] } ∧
    dirAt (addGo 4 c2Heap 1 2).1 0 = some c2Root := by
  decide

/-- Claim C3: the spec's invariant says a directory's aggregate size equals
the sum of its children's sizes after any mutation.  After adding the size-10
file to the root, the code leaves the root's size at 0 while the sum of the
children's sizes is 10, so the invariant fails. -/
theorem claim3_size_invariant_broken_at_root :
    (addGo 4 c1Heap 0 1).2 = none ∧
    sumChildSizes (addGo 4 c1Heap 0 1).1 0 = 10 ∧
    (dirAt (addGo 4 c1Heap 0 1).1 0).map Directory.size = some 0 ∧
    (dirAt (addGo 4 c1Heap 0 1).1 0).map Directory.size ≠
      some (sumChildSizes (addGo 4 c1Heap 0 1).1 0) := by
  decide

/-- Claim C4: the spec says decoding fails with `MalformedInput` exactly when
the name and link sequences have different lengths.  The code's bounds check
is inverted: a message with equal non-zero lengths is rejected with
`MalformedInput`, a message with a name but no links panics (index out of
range) instead of failing with `MalformedInput`, and a message with a link
but no names is accepted although the lengths disagree. -/
theorem claim4_decode_rejects_equal_lengths :
    (fromProtoGo freshDir c4EqualMsg).2 = some .malformedInput ∧
    (fromProtoGo freshDir c4NamesOnlyMsg).2 = some .idxOutOfRange ∧
    (fromProtoGo freshDir c4LinksOnlyMsg).2 = none := by
  decide

/-- Claim C5: the spec says encode-then-decode reproduces every Directory
field exactly, including for non-empty children.  Because of the inverted
decode check, decoding the encoding of a directory with one child fails with
`MalformedInput` and loses the children map; only the empty-children case
round-trips exactly. -/
theorem claim5_roundtrip_fails_with_children :
    (fromProtoGo freshDir (toProtoGo c5Dir)).2 = some .malformedInput ∧
    (fromProtoGo freshDir (toProtoGo c5Dir)).1.children = [] ∧
    (fromProtoGo freshDir (toProtoGo c5Dir)).1 ≠ c5Dir ∧
    fromProtoGo freshDir (toProtoGo c5Empty) = (c5Empty, none) := by
  decide

/-- Claim C6: the spec says `child(name)` returns the child stored under
that name, and `lookup` resolves a path to the registered node.  The code's
`Child` is a stub returning absent regardless of the children map, so even
though `a` is registered in the directory's children, `Child` returns absent
and `Lookup "a"` returns an overall absent result instead of the child. -/
theorem claim6_child_lookup_always_absent :
    mapLookup c6D.children "a" = some 5 ∧
    childGo c6D "a" = .ok none ∧
    lookupGo c6Heap 0 "a" = .ok none := by
  decide

/-- Claim C7: the spec says `Walk` visits every node of the subtree exactly
once (pre-order or post-order).  The code returns from inside the children
loop after recursing into the first child: on a directory with two file
children, the non-depth-first walk visits the directory and the first child
only, and the depth-first walk visits the first child only — the directory
itself and the second child are never visited. -/
theorem claim7_walk_visits_first_child_only :
    walkGo 5 c7Heap 0 false = ([0, 1], none) ∧
    walkGo 5 c7Heap 0 true = ([1], none) := by
  decide

/-- Claim C8 counterexample: the claimed general law — any add/removeChild
sequence netting to the empty children set returns the directory's digest to
its pre-sequence value — is false, because `Add` silently overwrites a
same-named entry without folding out the old child's contribution.  Adding
directory `F` (name `a`, digest 16), then `G` (name `a`, digest 32), then
removing `G` succeeds at every step and leaves the children map empty, yet
the digest ends at `7 ^^^ 16 = 23`, not the initial 7 (and the size at 1,
not 0). -/
theorem claim8_net_empty_digest_not_restored :
    (addGo 8 c8Heap 1 2).2 = none ∧
    (addGo 8 (addGo 8 c8Heap 1 2).1 1 3).2 = none ∧
    (removeChildGo 8 (addGo 8 (addGo 8 c8Heap 1 2).1 1 3).1 1 3).2 = none ∧
    (dirAt (removeChildGo 8 (addGo 8 (addGo 8 c8Heap 1 2).1 1 3).1 1 3).1 1).map
      Directory.children = some [] ∧
    (dirAt (removeChildGo 8 (addGo 8 (addGo 8 c8Heap 1 2).1 1 3).1 1 3).1 1).map
      Directory.hash = some 23 ∧
    some (23 : Hash) ≠ some c8D.hash ∧
    (dirAt (removeChildGo 8 (addGo 8 (addGo 8 c8Heap 1 2).1 1 3).1 1 3).1 1).map
      Directory.size ≠ some c8D.size := by
  decide

/-! ### Helper lemmas about the heap and modular arithmetic -/

theorem heapGet_lt_length {σ : Heap} {i : Nat} {n : StoreNode}
    (h : heapGet σ i = some n) : i < σ.length := by
  induction σ generalizing i with
  | nil => cases h
  | cons a rest ih =>
    cases i with
    | zero => exact Nat.succ_pos _
    | succ k => exact Nat.succ_lt_succ (ih h)

theorem heapGet_heapSet_self {σ : Heap} {i : Nat} (v : StoreNode)
    (h : i < σ.length) : heapGet (heapSet σ i v) i = some v := by
  induction σ generalizing i with
  | nil => cases h
  | cons a rest ih =>
    cases i with
    | zero => rfl
    | succ k => exact ih (Nat.lt_of_succ_lt_succ h)

theorem heapSet_heapSet {σ : Heap} {i : Nat} (v w : StoreNode) :
    heapSet (heapSet σ i v) i w = heapSet σ i w := by
  induction σ generalizing i with
  | nil => rfl
  | cons a rest ih =>
    cases i with
    | zero => rfl
    | succ k => simp [heapSet, ih]

theorem length_heapSet (σ : Heap) (i : Nat) (v : StoreNode) :
    (heapSet σ i v).length = σ.length := by
  induction σ generalizing i with
  | nil => rfl
  | cons a rest ih =>
    cases i with
    | zero => rfl
    | succ k => simp [heapSet, ih]

theorem dirAt_eq_heapGet {σ : Heap} {i : Nat} {d : Directory}
    (h : dirAt σ i = some d) : heapGet σ i = some (.dir d) := by
  unfold dirAt at h
  cases hg : heapGet σ i with
  | none => rw [hg] at h; cases h
  | some n =>
    cases n with
    | dir d2 => rw [hg] at h; simp at h; rw [h]
    | file f => rw [hg] at h; cases h

theorem dirAt_heapSet_self {σ : Heap} {i : Nat} (x : Directory)
    (h : i < σ.length) : dirAt (heapSet σ i (.dir x)) i = some x := by
  unfold dirAt
  rw [heapGet_heapSet_self _ h]

theorem u64add_sub_cancel (a b : Nat) (h : a < U64M) :
    u64sub (u64add a b) b = a := by
  unfold u64add u64sub U64M at *
  omega

theorem xor_xor_cancel (a b : Nat) : a ^^^ b ^^^ b = a := by
  rw [Nat.xor_assoc, Nat.xor_self, Nat.xor_zero]

/-- Claim C9: `RemoveChild` of a node whose name is not bound in the
directory's children map fails with the `NoSuchEntry` condition
(`NoSuchFile(name)` in the code) and returns before any mutation, so the
whole heap — in particular the directory's children map, size and digest —
is unchanged. -/
theorem claim9_remove_absent_name_fails
    (fuel : Nat) (σ : Heap) (i j : Nat) (n : StoreNode) (d : Directory)
    (hj : heapGet σ j = some n) (hi : dirAt σ i = some d)
    (habs : mapLookup d.children n.name = none) :
    removeChildGo fuel σ i j = (σ, some (.noSuchEntry n.name)) := by
  simp only [removeChildGo, hj, hi, habs]

/-- Witness for C9: removing the file `a.txt` from the root whose children
map is empty fails with `NoSuchEntry "a.txt"` and leaves the heap intact. -/
theorem claim9_remove_absent_name_fails_w :
    removeChildGo 4 c1Heap 0 1 = (c1Heap, some (.noSuchEntry "a.txt")) :=
  claim9_remove_absent_name_fails 4 c1Heap 0 1 (.file c1File) c1Root rfl rfl rfl

/-- The heap state `Add` has produced at the moment the digest fold resolves
the just-inserted child: the mutated directory already carries the new child
entry, the increased size, and the folded digest. -/
def addCrashState (s : Heap) (i : Nat) (n : StoreNode) (d : Directory) : Heap :=
  heapSet s i (.dir { d with children := [(n.name, n.hash)], size := u64add d.size n.size, hash := d.hash ^^^ n.hash })

/-- Claim C10: during `Add`, the digest update of a visited directory
resolves each of that directory's current children through the store's
directory-by-digest lookup (to rewrite their recorded parent digests), so
when a child's digest resolves to a non-Directory node the mutation returns
the lookup's type-mismatch error — and by then the directory's size (and
digest) update has already been applied.  Stated for a directory with no
prior children and a non-nil parent: adding any node whose digest the store
resolves to a non-Directory leaves the heap in `addCrashState` (size and
digest updated, child inserted) and returns `typeMismatch`. -/
theorem claim10_add_file_child_type_mismatch
    (fuel : Nat) (σ : Heap) (i j : Nat) (n : StoreNode) (d : Directory) (hp : Hash)
    (hj : heapGet σ j = some n) (hi : dirAt σ i = some d)
    (hpar : d.parent = some hp) (hch : d.children = [])
    (hres : directoryByHash (addCrashState σ i n d) n.hash = .error .typeMismatch) :
    addGo (fuel + 1) σ i j = (addCrashState σ i n d, some .typeMismatch) := by
  have hlen : i < σ.length := heapGet_lt_length (dirAt_eq_heapGet hi)
  have hlen1 : ∀ v : StoreNode, (heapSet σ i v).length = σ.length := length_heapSet σ i
  unfold addCrashState at hres ⊢
  simp only [addGo, hj, hi, hch, mapSet, upGo]
  rw [dirAt_heapSet_self _ hlen]
  simp only [hpar]
  rw [heapSet_heapSet]
  simp only [xorHashGo]
  rw [dirAt_heapSet_self _ hlen]
  simp only [visitChildrenGo]
  rw [heapSet_heapSet]
  rw [dirAt_heapSet_self _ hlen]
  simp only [visitChildrenFrom]
  simp only [hpar] at hres
  rw [hres]

def c10D : Directory :=
  { name := "d", size := 3, modTime := 0, parent := some 99, hash := 5, children := [], id := 1 }

def c10F : FileNode := { name := "a", size := 10, hash := 9, parent := none, id := 2 }

/-- A non-root directory and the file about to be added to it. -/
def c10Heap : Heap := [.dir c10D, .file c10F]

/-- Witness for C10: adding the file (size 10, digest 9) to the non-root
directory (size 3, digest 5) returns the type-mismatch error, with the
directory's size already at 13 and its digest already at `5 ^^^ 9 = 12`. -/
theorem claim10_add_file_child_type_mismatch_w :
    addGo 3 c10Heap 0 1 = (addCrashState c10Heap 0 (.file c10F) c10D, some .typeMismatch) ∧
    dirAt (addCrashState c10Heap 0 (.file c10F) c10D) 0 =
      some { c10D with children := [("a", 9)], size := 13, hash := 12 } :=
  ⟨claim10_add_file_child_type_mismatch 2 c10Heap 0 1 (.file c10F) c10D 99 rfl rfl rfl rfl
      (by decide),
    by decide⟩

/-- A three-object store — a root, the mutated directory `d` (no children,
parent pointing at the root's digest), and a child directory to be added —
with every field left symbolic. -/
def c8Family (nR nD nF : String) (sR sD sF tR tD tF : Nat) (hR hD hF : Hash)
    (cR cF : List (String × Hash)) (jR jD jF : Nat) (pF : Option Hash) : Heap :=
  [.dir { name := nR, size := sR, modTime := tR, parent := none, hash := hR, children := cR, id := jR },
   .dir { name := nD, size := sD, modTime := tD, parent := some hR, hash := hD, children := [], id := jD },
   .dir { name := nF, size := sF, modTime := tF, parent := pF, hash := hF, children := cF, id := jF }]

/-- Claim C8 (amended): `removeChild` immediately after `add` of the same
node is a no-op on the directory's digest and size — in fact the whole
directory record is restored.  Proved for every instance of the three-object
family (all names, sizes, times, digests, ids and the extra maps symbolic),
under the digest-distinctness conditions that make both upward walks resolve
only proper ancestors: the root's digest differs from the child's, and the
directory's folded digest differs from the child's (no store collision).
The claim's further generalization to arbitrary sequences netting to empty
children is refuted by `claim8_net_empty_digest_not_restored`: it fails as
soon as an `add` overwrites a same-named entry. -/
theorem claim8_add_remove_pair_restores
    (nR nD nF : String) (sR sD sF tR tD tF : Nat) (hR hD hF : Hash)
    (cR cF : List (String × Hash)) (jR jD jF : Nat) (pF : Option Hash)
    (hne1 : hR ≠ hF) (hne2 : hD ^^^ hF ≠ hF) (hlt : sD < U64M) :
    (addGo 4 (c8Family nR nD nF sR sD sF tR tD tF hR hD hF cR cF jR jD jF pF) 1 2).2 = none ∧
    (removeChildGo 4 (addGo 4 (c8Family nR nD nF sR sD sF tR tD tF hR hD hF cR cF jR jD jF pF) 1 2).1 1 2).2 = none ∧
    dirAt (removeChildGo 4 (addGo 4 (c8Family nR nD nF sR sD sF tR tD tF hR hD hF cR cF jR jD jF pF) 1 2).1 1 2).1 1 =
      dirAt (c8Family nR nD nF sR sD sF tR tD tF hR hD hF cR cF jR jD jF pF) 1 := by
  refine ⟨?_, ?_, ?_⟩ <;>
    simp [c8Family, addGo, removeChildGo, upGo, xorHashGo, visitChildrenGo, visitChildrenFrom,
      setParentGo, StoreNode.withParent, StoreNode.name, StoreNode.size, StoreNode.hash,
      heapGet, heapSet, dirAt, mapSet, mapLookup, mapErase, findHashIdx, directoryByHash,
      emptyHash, hne1, hne2, u64add_sub_cancel sD sF hlt, xor_xor_cancel]

/-- Witness for the amended C8: on the concrete instance with digests 3, 7
and 16, adding and then removing the child directory succeeds and restores
the mutated directory exactly. -/
theorem claim8_add_remove_pair_restores_w :
    (addGo 4 (c8Family "root" "d" "a" 0 0 1 0 0 0 3 7 16 [("d", 7)] [] 1 2 3 none) 1 2).2 = none ∧
    (removeChildGo 4 (addGo 4 (c8Family "root" "d" "a" 0 0 1 0 0 0 3 7 16 [("d", 7)] [] 1 2 3 none) 1 2).1 1 2).2 = none ∧
    dirAt (removeChildGo 4 (addGo 4 (c8Family "root" "d" "a" 0 0 1 0 0 0 3 7 16 [("d", 7)] [] 1 2 3 none) 1 2).1 1 2).1 1 =
      dirAt (c8Family "root" "d" "a" 0 0 1 0 0 0 3 7 16 [("d", 7)] [] 1 2 3 none) 1 :=
  claim8_add_remove_pair_restores "root" "d" "a" 0 0 1 0 0 0 3 7 16 [("d", 7)] [] 1 2 3 none
    (by decide) (by decide) (by decide)
